import Mathlib

/-
Verification of the pipeline-configuration validator and the receiver factory
of the collector service, as a shallow embedding in Lean 4.

The embedding follows the Go source:
 * `Config.Validate` / `Config.validateService` (package service):
   fail-fast validation of the component maps and the service pipelines.
 * `NewReceiverFactory` and the `Create*Receiver` dispatch methods
   (package component): per-signal-kind constructor records with an
   explicit "unsupported" sentinel.

Go maps keyed by `component.ID` with interface values are modelled as
association lists `List (ID × Option CompConfig)`: a key bound to `none`
models a key present in the map whose stored interface value is nil, and
Go's `m[k]` indexing (which yields the nil interface both for an absent
key and for a stored nil) is `goGet`.  Go map iteration is modelled as
iteration in list order; the source iterates with `range`, whose order Go
does not fix, so list order is one admissible determinization.  Errors
are modelled structurally: one constructor per `errors.New` / `fmt.Errorf`
site, carrying the same data the format verbs carry.
-/

namespace Otel

/-- Component identity: `component.ID` is a (type, name) pair; the type both
names the plugin and, for pipeline IDs, encodes the signal kind. -/
structure ID where
  type : String
  name : String
deriving DecidableEq

/-- Modelled from the spec: `component.ValidateConfig` and the concrete config
blobs are outside the excerpt; the spec says each blob is validated through a
per-type hook owned externally by the plugin.  A config value therefore just
carries its hook's result (`none` = the hook accepts). -/
structure CompConfig where
  validateResult : Option String
deriving DecidableEq

/-- Modelled from the spec: `component.ValidateConfig` on a nil interface value
performs no per-type validation and accepts; on a non-nil value it runs the
blob's externally-owned hook. -/
def validateConfig : Option CompConfig → Option String
  | none => none
  | some c => c.validateResult

/-- A Go `map[component.ID]component.Config`: association list with unique
keys; a value of `none` is a stored nil interface. -/
abbrev GoMap : Type := List (ID × Option CompConfig)

/-- Go map indexing `m[k]`: the first binding of `k` (flattened), the nil
interface (`none`) when `k` is absent.  A key bound to nil and an absent key
are indistinguishable through this operation, exactly as in Go. -/
def goGet : GoMap → ID → Option CompConfig
  | [], _ => none
  | (k, v) :: rest, key => if k = key then v else goGet rest key

/-- The signal-kind constants `component.DataTypeTraces` etc.; `component.Type`
is a string type. -/
def DataTypeTraces : String := "traces"

def DataTypeMetrics : String := "metrics"

def DataTypeLogs : String := "logs"

/-- The errors `Config.Validate` can return, one constructor per error site in
the source, carrying the data the corresponding format verbs carry. -/
inductive GoError
  | missingReceivers
  | missingExporters
  | missingServicePipelines
  | receiverInvalid (id : ID) (err : String)
  | exporterInvalid (id : ID) (err : String)
  | processorInvalid (id : ID) (err : String)
  | extensionInvalid (id : ID) (err : String)
  | serviceExtensionNotExist (ref : ID)
  | unknownPipelineDatatype (kind : String) (pid : ID)
  | pipelineMustHaveReceiver (pid : ID)
  | pipelineReceiverNotExist (pid : ID) (ref : ID)
  | pipelineProcessorNotExist (pid : ID) (ref : ID)
  | pipelineProcessorMultiple (pid : ID) (ref : ID)
  | pipelineMustHaveExporter (pid : ID)
  | pipelineExporterNotExist (pid : ID) (ref : ID)
deriving DecidableEq

/-- A pipeline (`config.Pipeline`, aliased `ConfigServicePipeline`): ordered
receiver, processor and exporter reference lists.  Modelled from the spec for
the struct shape (the defining file is outside the excerpt); the field names
are the ones `validateService` reads. -/
structure Pipeline where
  Receivers : List ID
  Processors : List ID
  Exporters : List ID
deriving DecidableEq

/-- Modelled from the spec: `telemetry.Config` and its `Validate` are outside
the excerpt; the validator only calls `Validate` and logs a failure, so the
sub-config just carries that call's result. -/
structure TelemetryConfig where
  validateResult : Option String
deriving DecidableEq

/-- `ConfigService`: telemetry sub-config, ordered extension list, pipeline
map. -/
structure ConfigService where
  Telemetry : TelemetryConfig
  Extensions : List ID
  Pipelines : List (ID × Pipeline)
deriving DecidableEq

/-- `Config`: the four category maps and the service section. -/
structure Config where
  Receivers : GoMap
  Exporters : GoMap
  Processors : GoMap
  Extensions : GoMap
  Service : ConfigService
deriving DecidableEq

/-- One category-validation loop of `Config.Validate`: for each entry run
`component.ValidateConfig` and wrap the first failure with the component
identity (`wrap` is the category's `fmt.Errorf` site). -/
def validateEntries (wrap : ID → String → GoError) : GoMap → Option GoError
  | [] => none
  | (id, c) :: rest =>
    match validateConfig c with
    | some e => some (wrap id e)
    | none => validateEntries wrap rest

/-- A reference-resolution loop: for each reference, fail with `mk ref` when
the indexed map value is nil (`m[ref] == nil` in the source). -/
def checkRefs (m : GoMap) (mk : ID → GoError) : List ID → Option GoError
  | [] => none
  | ref :: rest =>
    if (goGet m ref).isNone then some (mk ref) else checkRefs m mk rest

/-- The processor loop of `validateService`: resolution check first, then the
duplicate check against the seen-set `procSet` (modelled as the list of
already-processed references). -/
def checkProcessors (m : GoMap) (pid : ID) (seen : List ID) :
    List ID → Option GoError
  | [] => none
  | ref :: rest =>
    if (goGet m ref).isNone then some (GoError.pipelineProcessorNotExist pid ref)
    else if ref ∈ seen then some (GoError.pipelineProcessorMultiple pid ref)
    else checkProcessors m pid (ref :: seen) rest

/-- The per-pipeline checks of one iteration of the pipeline loop, in source
order: kind check, receiver presence, receiver references, processor
references and duplicates, exporter presence, exporter references. -/
def pipelineChecks (cfg : Config) (pid : ID) (p : Pipeline) : Option GoError :=
  if pid.type ≠ DataTypeTraces ∧ pid.type ≠ DataTypeMetrics ∧ pid.type ≠ DataTypeLogs then
    some (GoError.unknownPipelineDatatype pid.type pid)
  else if p.Receivers.length = 0 then
    some (GoError.pipelineMustHaveReceiver pid)
  else
    match checkRefs cfg.Receivers (GoError.pipelineReceiverNotExist pid) p.Receivers with
    | some e => some e
    | none =>
      match checkProcessors cfg.Processors pid [] p.Processors with
      | some e => some e
      | none =>
        if p.Exporters.length = 0 then
          some (GoError.pipelineMustHaveExporter pid)
        else
          checkRefs cfg.Exporters (GoError.pipelineExporterNotExist pid) p.Exporters

/-- The log line the telemetry soft-check prints on failure. -/
def telemetryWarn (msg : String) : String :=
  "telemetry config validation failed, " ++ msg

/-- The pipeline loop of `validateService`.  Each iteration runs the hard
per-pipeline checks and returns their first failure; when they pass, it runs
`cfg.Service.Telemetry.Validate()` and only appends a log line on failure,
then continues.  The returned pair is (result, printed log lines). -/
def pipelinesLoop (cfg : Config) :
    List (ID × Pipeline) → List String → Option GoError × List String
  | [], logs => (none, logs)
  | (pid, p) :: rest, logs =>
    match pipelineChecks cfg pid p with
    | some e => (some e, logs)
    | none =>
      match cfg.Service.Telemetry.validateResult with
      | some msg => pipelinesLoop cfg rest (logs ++ [telemetryWarn msg])
      | none => pipelinesLoop cfg rest logs

/-- The service-extension reference loop of `validateService`: each referenced
extension must index to a non-nil value in the top-level extensions map. -/
def checkServiceExtensions (cfg : Config) : List ID → Option GoError :=
  checkRefs cfg.Extensions GoError.serviceExtensionNotExist

/-- `Config.validateService`: extension references, pipeline presence, then
the pipeline loop.  Result plus printed log lines. -/
def Config.validateService (cfg : Config) : Option GoError × List String :=
  match checkServiceExtensions cfg cfg.Service.Extensions with
  | some e => (some e, [])
  | none =>
    if cfg.Service.Pipelines.length = 0 then (some GoError.missingServicePipelines, [])
    else pipelinesLoop cfg cfg.Service.Pipelines []

/-- `Config.Validate`, statement by statement: receiver presence, receiver
configs, exporter presence, exporter configs, processor configs, extension
configs, then `validateService`.  Result plus printed log lines. -/
def Config.ValidateFull (cfg : Config) : Option GoError × List String :=
  if cfg.Receivers.length = 0 then (some GoError.missingReceivers, [])
  else
    match validateEntries GoError.receiverInvalid cfg.Receivers with
    | some e => (some e, [])
    | none =>
      if cfg.Exporters.length = 0 then (some GoError.missingExporters, [])
      else
        match validateEntries GoError.exporterInvalid cfg.Exporters with
        | some e => (some e, [])
        | none =>
          match validateEntries GoError.processorInvalid cfg.Processors with
          | some e => (some e, [])
          | none =>
            match validateEntries GoError.extensionInvalid cfg.Extensions with
            | some e => (some e, [])
            | none => cfg.validateService

/-- The error returned by `Config.Validate`. -/
def Config.Validate (cfg : Config) : Option GoError :=
  cfg.ValidateFull.1

/-- `Config.Validate` with the post-state of its pointer receiver made
explicit.  The source assigns to no field of `cfg` (the only mutable state,
`procSet`, is a local of `validateService`), so the state the receiver points
to after the call is the state it pointed to before. -/
def Config.ValidateSt (cfg : Config) : Option GoError × Config :=
  (cfg.Validate, cfg)

/-! The receiver factory (package component).  The factory's constructor
fields are nil-able Go function values, modelled as `Option` of Lean
functions; the argument tuple (context, create settings, config, downstream
consumer) and the produced component are opaque to the dispatch logic, so they
are type parameters, one argument type and one component type per signal
kind. -/

/-- Modelled from the spec: the `StabilityLevel` enum is outside the excerpt;
the spec lists undefined/unmaintained/experimental/alpha/beta/stable/
deprecated, with `undefined` the default (Go zero value, first enum value). -/
inductive StabilityLevel
  | undefined
  | unmaintained
  | experimental
  | alpha
  | beta
  | stable
  | deprecated
deriving DecidableEq

/-- Modelled from the spec: the error value a factory returns for a signal
kind it never registered, distinguished from any other construction error. -/
inductive FactoryError
  | dataTypeNotSupported
  | other (msg : String)
deriving DecidableEq

/-- The sentinel `component.ErrDataTypeIsNotSupported`. -/
def ErrDataTypeIsNotSupported : FactoryError :=
  FactoryError.dataTypeNotSupported

/-- A Go `(Component, error)` return pair. -/
abbrev CreateResult (τ : Type) : Type :=
  Option τ × Option FactoryError

/-- The struct `receiverFactory`: the base factory data plus, per signal
kind, a nil-able constructor function value and a stability level.  `TA`,
`MA`, `LA` are the argument tuples of the traces/metrics/logs constructors and
`TR`, `MR`, `LR` the produced receiver components. -/
structure receiverFactory (TA TR MA MR LA LR : Type) where
  cfgType : String
  createDefaultConfigFunc : Unit → Option CompConfig
  createTracesReceiverFunc : Option (TA → CreateResult TR)
  tracesStabilityLevel : StabilityLevel
  createMetricsReceiverFunc : Option (MA → CreateResult MR)
  metricsStabilityLevel : StabilityLevel
  createLogsReceiverFunc : Option (LA → CreateResult LR)
  logsStabilityLevel : StabilityLevel

/-- `CreateTracesReceiverFunc.CreateTracesReceiver`, promoted to the factory:
a nil function value yields `(nil, ErrDataTypeIsNotSupported)`, a non-nil one
is called through. -/
def receiverFactory.CreateTracesReceiver {TA TR MA MR LA LR : Type}
    (f : receiverFactory TA TR MA MR LA LR) (x : TA) : CreateResult TR :=
  match f.createTracesReceiverFunc with
  | none => (none, some ErrDataTypeIsNotSupported)
  | some g => g x

/-- `CreateMetricsReceiverFunc.CreateMetricsReceiver`, promoted to the
factory. -/
def receiverFactory.CreateMetricsReceiver {TA TR MA MR LA LR : Type}
    (f : receiverFactory TA TR MA MR LA LR) (x : MA) : CreateResult MR :=
  match f.createMetricsReceiverFunc with
  | none => (none, some ErrDataTypeIsNotSupported)
  | some g => g x

/-- `CreateLogsReceiverFunc.CreateLogsReceiver`, promoted to the factory. -/
def receiverFactory.CreateLogsReceiver {TA TR MA MR LA LR : Type}
    (f : receiverFactory TA TR MA MR LA LR) (x : LA) : CreateResult LR :=
  match f.createLogsReceiverFunc with
  | none => (none, some ErrDataTypeIsNotSupported)
  | some g => g x

/-- `receiverFactory.TracesReceiverStability`. -/
def receiverFactory.TracesReceiverStability {TA TR MA MR LA LR : Type}
    (f : receiverFactory TA TR MA MR LA LR) : StabilityLevel :=
  f.tracesStabilityLevel

/-- `receiverFactory.MetricsReceiverStability`. -/
def receiverFactory.MetricsReceiverStability {TA TR MA MR LA LR : Type}
    (f : receiverFactory TA TR MA MR LA LR) : StabilityLevel :=
  f.metricsStabilityLevel

/-- `receiverFactory.LogsReceiverStability`. -/
def receiverFactory.LogsReceiverStability {TA TR MA MR LA LR : Type}
    (f : receiverFactory TA TR MA MR LA LR) : StabilityLevel :=
  f.logsStabilityLevel

/-- A `ReceiverFactoryOption`: applied to the factory under construction. -/
abbrev ReceiverFactoryOption (TA TR MA MR LA LR : Type) : Type :=
  receiverFactory TA TR MA MR LA LR → receiverFactory TA TR MA MR LA LR

/-- `WithTracesReceiver`: sets the traces constructor and its stability. -/
def WithTracesReceiver {TA TR MA MR LA LR : Type}
    (createTracesReceiver : TA → CreateResult TR) (sl : StabilityLevel) :
    ReceiverFactoryOption TA TR MA MR LA LR := fun o =>
  { o with tracesStabilityLevel := sl,
           createTracesReceiverFunc := some createTracesReceiver }

/-- `WithMetricsReceiver`: sets the metrics constructor and its stability. -/
def WithMetricsReceiver {TA TR MA MR LA LR : Type}
    (createMetricsReceiver : MA → CreateResult MR) (sl : StabilityLevel) :
    ReceiverFactoryOption TA TR MA MR LA LR := fun o =>
  { o with metricsStabilityLevel := sl,
           createMetricsReceiverFunc := some createMetricsReceiver }

/-- `WithLogsReceiver`: sets the logs constructor and its stability. -/
def WithLogsReceiver {TA TR MA MR LA LR : Type}
    (createLogsReceiver : LA → CreateResult LR) (sl : StabilityLevel) :
    ReceiverFactoryOption TA TR MA MR LA LR := fun o =>
  { o with logsStabilityLevel := sl,
           createLogsReceiverFunc := some createLogsReceiver }

/-- `NewReceiverFactory`: starts from the zero-valued factory record (nil
constructor function values, `undefined` stability levels — the Go zero
values) and applies the options in order. -/
def NewReceiverFactory {TA TR MA MR LA LR : Type} (cfgType : String)
    (createDefaultConfig : Unit → Option CompConfig)
    (options : List (ReceiverFactoryOption TA TR MA MR LA LR)) :
    receiverFactory TA TR MA MR LA LR :=
  options.foldl (fun f opt => opt f)
    { cfgType := cfgType
      createDefaultConfigFunc := createDefaultConfig
      createTracesReceiverFunc := none
      tracesStabilityLevel := StabilityLevel.undefined
      createMetricsReceiverFunc := none
      metricsStabilityLevel := StabilityLevel.undefined
      createLogsReceiverFunc := none
      logsStabilityLevel := StabilityLevel.undefined }

/-! Helper lemmas about the validator's loops. -/

theorem length_ne_zero_of_ne_nil {α : Type} {l : List α} (h : l ≠ []) :
    ¬l.length = 0 := by
  simpa [List.length_eq_zero] using h

theorem validateFull_of_preOk (cfg : Config)
    (h1 : cfg.Receivers ≠ [])
    (h2 : validateEntries GoError.receiverInvalid cfg.Receivers = none)
    (h3 : cfg.Exporters ≠ [])
    (h4 : validateEntries GoError.exporterInvalid cfg.Exporters = none)
    (h5 : validateEntries GoError.processorInvalid cfg.Processors = none)
    (h6 : validateEntries GoError.extensionInvalid cfg.Extensions = none) :
    cfg.ValidateFull = cfg.validateService := by
  simp [Config.ValidateFull, h2, h4, h5, h6,
    length_ne_zero_of_ne_nil h1, length_ne_zero_of_ne_nil h3]

theorem validateService_toLoop (cfg : Config)
    (h7 : checkServiceExtensions cfg cfg.Service.Extensions = none)
    (h8 : cfg.Service.Pipelines ≠ []) :
    cfg.validateService = pipelinesLoop cfg cfg.Service.Pipelines [] := by
  simp [Config.validateService, h7, length_ne_zero_of_ne_nil h8]

theorem pipelinesLoop_fst_logs (cfg : Config) :
    ∀ (l : List (ID × Pipeline)) (logs logs' : List String),
      (pipelinesLoop cfg l logs).1 = (pipelinesLoop cfg l logs').1 := by
  intro l
  induction l with
  | nil => intro logs logs'; rfl
  | cons q rest ih =>
    intro logs logs'
    obtain ⟨pid, p⟩ := q
    cases h : pipelineChecks cfg pid p with
    | some e => simp [pipelinesLoop, h]
    | none =>
      cases ht : cfg.Service.Telemetry.validateResult with
      | some msg =>
        simpa [pipelinesLoop, h, ht] using
          ih (logs ++ [telemetryWarn msg]) (logs' ++ [telemetryWarn msg])
      | none => simpa [pipelinesLoop, h, ht] using ih logs logs'

theorem pipelinesLoop_fst_append_ok (cfg : Config) :
    ∀ (l₁ rest : List (ID × Pipeline)) (logs : List String),
      (∀ q ∈ l₁, pipelineChecks cfg q.1 q.2 = none) →
      (pipelinesLoop cfg (l₁ ++ rest) logs).1 = (pipelinesLoop cfg rest logs).1 := by
  intro l₁
  induction l₁ with
  | nil => intro rest logs _; rfl
  | cons q l ih =>
    intro rest logs h
    obtain ⟨pid, p⟩ := q
    have hq : pipelineChecks cfg pid p = none := h (pid, p) (by simp)
    have hl : ∀ q ∈ l, pipelineChecks cfg q.1 q.2 = none := fun q hq' => h q (by simp [hq'])
    cases ht : cfg.Service.Telemetry.validateResult with
    | some msg =>
      calc (pipelinesLoop cfg ((pid, p) :: l ++ rest) logs).1
          = (pipelinesLoop cfg (l ++ rest) (logs ++ [telemetryWarn msg])).1 := by
            simp [pipelinesLoop, hq, ht]
        _ = (pipelinesLoop cfg rest (logs ++ [telemetryWarn msg])).1 := ih rest _ hl
        _ = (pipelinesLoop cfg rest logs).1 := pipelinesLoop_fst_logs cfg rest _ _
    | none =>
      calc (pipelinesLoop cfg ((pid, p) :: l ++ rest) logs).1
          = (pipelinesLoop cfg (l ++ rest) logs).1 := by simp [pipelinesLoop, hq, ht]
        _ = (pipelinesLoop cfg rest logs).1 := ih rest _ hl

theorem checkRefs_ok (m : GoMap) (mk : ID → GoError) :
    ∀ l : List ID, (∀ x ∈ l, (goGet m x).isNone = false) → checkRefs m mk l = none := by
  intro l
  induction l with
  | nil => intro _; rfl
  | cons x l ih =>
    intro h
    have hx := h x (by simp)
    simp [checkRefs, hx]
    exact ih fun y hy => h y (by simp [hy])

theorem checkRefs_append_found (m : GoMap) (mk : ID → GoError) :
    ∀ (r₁ : List ID) (ref : ID) (r₂ : List ID),
      (∀ x ∈ r₁, (goGet m x).isNone = false) → (goGet m ref).isNone = true →
      checkRefs m mk (r₁ ++ ref :: r₂) = some (mk ref) := by
  intro r₁
  induction r₁ with
  | nil => intro ref r₂ _ href; simp [checkRefs, href]
  | cons x l ih =>
    intro ref r₂ h href
    have hx := h x (by simp)
    simp [checkRefs, hx]
    exact ih ref r₂ (fun y hy => h y (by simp [hy])) href

theorem checkProcessors_seen_shift (m : GoMap) (pid : ID) :
    ∀ (l s rest : List ID),
      (∀ x ∈ l, (goGet m x).isNone = false) → l.Nodup → (∀ x ∈ l, x ∉ s) →
      checkProcessors m pid s (l ++ rest) =
        checkProcessors m pid (l.reverse ++ s) rest := by
  intro l
  induction l with
  | nil => intro s rest _ _ _; rfl
  | cons x l ih =>
    intro s rest h hnd hdisj
    have hx := h x (by simp)
    have hxs : x ∉ s := hdisj x (by simp)
    have hxl : x ∉ l := by
      have := List.nodup_cons.mp hnd
      exact this.1
    have hstep : checkProcessors m pid s ((x :: l) ++ rest) =
        checkProcessors m pid (x :: s) (l ++ rest) := by
      simp [checkProcessors, hx, hxs]
    rw [hstep, ih (x :: s) rest (fun y hy => h y (by simp [hy]))
      (List.nodup_cons.mp hnd).2
      (fun y hy => by
        simp only [List.mem_cons]
        push_neg
        exact ⟨fun hyx => hxl (hyx ▸ hy), hdisj y (by simp [hy])⟩)]
    simp

theorem checkProcessors_ok (m : GoMap) (pid : ID) (l : List ID)
    (h : ∀ x ∈ l, (goGet m x).isNone = false) (hnd : l.Nodup) :
    checkProcessors m pid [] l = none := by
  have := checkProcessors_seen_shift m pid l [] []
    h hnd (by simp)
  simpa using this

theorem checkProcessors_dup (m : GoMap) (pid : ID) (l : List ID) (r : ID)
    (rest : List ID)
    (h : ∀ x ∈ l, (goGet m x).isNone = false) (hnd : l.Nodup)
    (hr : (goGet m r).isNone = false) (hmem : r ∈ l) :
    checkProcessors m pid [] (l ++ r :: rest) =
      some (GoError.pipelineProcessorMultiple pid r) := by
  have hshift := checkProcessors_seen_shift m pid l [] (r :: rest) h hnd (by simp)
  rw [hshift]
  simp [checkProcessors, hr, hmem]

theorem checkProcessors_dangling (m : GoMap) (pid : ID) (l : List ID) (r : ID)
    (rest : List ID)
    (h : ∀ x ∈ l, (goGet m x).isNone = false) (hnd : l.Nodup)
    (hr : (goGet m r).isNone = true) :
    checkProcessors m pid [] (l ++ r :: rest) =
      some (GoError.pipelineProcessorNotExist pid r) := by
  have hshift := checkProcessors_seen_shift m pid l [] (r :: rest) h hnd (by simp)
  rw [hshift]
  simp [checkProcessors, hr]

/-! Congruence: `validateService` reads the category maps only through
`goGet`, so two configs whose maps index identically (and whose service
sections agree) validate identically. -/

theorem checkRefs_congr (m₁ m₂ : GoMap) (mk : ID → GoError)
    (hm : ∀ k, goGet m₁ k = goGet m₂ k) :
    ∀ l : List ID, checkRefs m₁ mk l = checkRefs m₂ mk l := by
  intro l
  induction l with
  | nil => rfl
  | cons x l ih => simp [checkRefs, hm x, ih]

theorem checkProcessors_congr (m₁ m₂ : GoMap) (pid : ID)
    (hm : ∀ k, goGet m₁ k = goGet m₂ k) :
    ∀ (l s : List ID), checkProcessors m₁ pid s l = checkProcessors m₂ pid s l := by
  intro l
  induction l with
  | nil => intro s; rfl
  | cons x l ih => intro s; simp [checkProcessors, hm x, ih]

theorem pipelineChecks_congr (c₁ c₂ : Config)
    (hR : ∀ k, goGet c₁.Receivers k = goGet c₂.Receivers k)
    (hP : ∀ k, goGet c₁.Processors k = goGet c₂.Processors k)
    (hE : ∀ k, goGet c₁.Exporters k = goGet c₂.Exporters k)
    (pid : ID) (p : Pipeline) :
    pipelineChecks c₁ pid p = pipelineChecks c₂ pid p := by
  simp only [pipelineChecks, checkRefs_congr _ _ _ hR, checkProcessors_congr _ _ _ hP,
    checkRefs_congr _ _ _ hE]

theorem pipelinesLoop_congr (c₁ c₂ : Config)
    (hR : ∀ k, goGet c₁.Receivers k = goGet c₂.Receivers k)
    (hP : ∀ k, goGet c₁.Processors k = goGet c₂.Processors k)
    (hE : ∀ k, goGet c₁.Exporters k = goGet c₂.Exporters k)
    (hT : c₁.Service.Telemetry = c₂.Service.Telemetry) :
    ∀ (l : List (ID × Pipeline)) (logs : List String),
      pipelinesLoop c₁ l logs = pipelinesLoop c₂ l logs := by
  intro l
  induction l with
  | nil => intro logs; rfl
  | cons q rest ih =>
    intro logs
    obtain ⟨pid, p⟩ := q
    simp only [pipelinesLoop, pipelineChecks_congr c₁ c₂ hR hP hE pid p, hT, ih]

theorem validateService_congr (c₁ c₂ : Config)
    (hR : ∀ k, goGet c₁.Receivers k = goGet c₂.Receivers k)
    (hP : ∀ k, goGet c₁.Processors k = goGet c₂.Processors k)
    (hE : ∀ k, goGet c₁.Exporters k = goGet c₂.Exporters k)
    (hX : ∀ k, goGet c₁.Extensions k = goGet c₂.Extensions k)
    (hS : c₁.Service = c₂.Service) :
    c₁.validateService = c₂.validateService := by
  simp only [Config.validateService, checkServiceExtensions,
    checkRefs_congr _ _ _ hX, hS, pipelinesLoop_congr c₁ c₂ hR hP hE (by rw [hS])]

/-! A key bound to a nil value behaves, through every operation the validator
performs, like an absent key: indexing yields nil either way, and
`component.ValidateConfig` accepts a nil value. -/

theorem goGet_eq_none_of_fresh (i : ID) :
    ∀ m : GoMap, i ∉ m.map Prod.fst → goGet m i = none := by
  intro m
  induction m with
  | nil => intro _; rfl
  | cons e rest ih =>
    intro h
    obtain ⟨k, v⟩ := e
    have hk : k ≠ i := by
      intro hk
      exact h (by simp [hk])
    have h' : i ∉ rest.map Prod.fst := by
      intro hmem
      exact h (by simp [hmem])
    simp [goGet, hk]
    exact ih h'

theorem goGet_insert_nil (i : ID) :
    ∀ (l₁ l₂ : GoMap), i ∉ (l₁ ++ l₂).map Prod.fst →
      ∀ k, goGet (l₁ ++ (i, none) :: l₂) k = goGet (l₁ ++ l₂) k := by
  intro l₁
  induction l₁ with
  | nil =>
    intro l₂ hfresh k
    by_cases h : i = k
    · subst h
      simp [goGet, goGet_eq_none_of_fresh i l₂ (by simpa using hfresh)]
    · simp [goGet, h]
  | cons e l ih =>
    intro l₂ hfresh k
    obtain ⟨k', v⟩ := e
    have hfresh' : i ∉ (l ++ l₂).map Prod.fst := by
      intro hmem
      exact hfresh (by simp at hmem ⊢; tauto)
    by_cases h : k' = k
    · simp [goGet, h]
    · simp only [List.cons_append, goGet, if_neg h]
      exact ih l₂ hfresh' k

theorem validateEntries_insert_nil (w : ID → String → GoError) (i : ID) :
    ∀ (l₁ l₂ : GoMap),
      validateEntries w (l₁ ++ (i, none) :: l₂) = validateEntries w (l₁ ++ l₂) := by
  intro l₁
  induction l₁ with
  | nil => intro l₂; simp [validateEntries, validateConfig]
  | cons e l ih =>
    intro l₂
    obtain ⟨id, c⟩ := e
    cases hc : validateConfig c with
    | some err => simp [validateEntries, hc]
    | none => simp [validateEntries, hc, ih]

/-- The four component categories whose maps `Config` holds. -/
inductive Category
  | receivers
  | exporters
  | processors
  | extensions
deriving DecidableEq

/-- The category's map inside a config. -/
def Config.catMap (cfg : Config) : Category → GoMap
  | Category.receivers => cfg.Receivers
  | Category.exporters => cfg.Exporters
  | Category.processors => cfg.Processors
  | Category.extensions => cfg.Extensions

/-- The config with the category's map replaced. -/
def Config.setCatMap (cfg : Config) : Category → GoMap → Config
  | Category.receivers, m => { cfg with Receivers := m }
  | Category.exporters, m => { cfg with Exporters := m }
  | Category.processors, m => { cfg with Processors := m }
  | Category.extensions, m => { cfg with Extensions := m }

/-! Concrete identities, blobs and configs used by the concrete instances
below. -/

/-- A receiver/exporter identity. -/
def otlpID : ID := ⟨"otlp", ""⟩

/-- A processor identity. -/
def batchID : ID := ⟨"batch", ""⟩

/-- A receiver identity left out of the top-level receivers map. -/
def zipkinID : ID := ⟨"zipkin", ""⟩

/-- An extension identity. -/
def healthID : ID := ⟨"health", ""⟩

/-- A pipeline identity of the unsupported kind "profiles". -/
def profilesPid : ID := ⟨"profiles", ""⟩

/-- A traces pipeline identity. -/
def tracesPid : ID := ⟨"traces", ""⟩

/-- A config blob whose validation hook accepts. -/
def okCfg : CompConfig := ⟨none⟩

/-- A telemetry sub-config whose validation succeeds. -/
def noTelemetry : TelemetryConfig := ⟨none⟩

/-- A service section with no extensions and no pipelines. -/
def emptyService : ConfigService := ⟨noTelemetry, [], []⟩

/-- The all-empty config. -/
def emptyConfig : Config := ⟨[], [], [], [], emptyService⟩

/-- A config with one valid receiver and nothing else. -/
def recvOnlyConfig : Config := ⟨[(otlpID, some okCfg)], [], [], [], emptyService⟩

/-- One valid receiver and one valid exporter, no pipelines. -/
def minimalNoPipelines : Config :=
  ⟨[(otlpID, some okCfg)], [(otlpID, some okCfg)], [], [], emptyService⟩

/-- C1.  As stated the claim fails for the exporters half: a config whose
exporters map is empty is not always rejected with the missing-exporters
error, because the receivers checks run first.  On the all-empty config,
whose exporters map is empty, `Validate` returns the missing-receivers
error instead. -/
theorem c1_exporters_not_unconditional :
    emptyConfig.Exporters = [] ∧
      emptyConfig.Validate ≠ some GoError.missingExporters := by
  exact ⟨rfl, by decide⟩

/-- C1 (amended): a config with an empty receivers map is rejected with the
missing-receivers error unconditionally; a config with an empty exporters map
is rejected with the missing-exporters error provided the receivers map is
non-empty and every receiver config passes its validation hook — and then
regardless of the processors, extensions and service sections. -/
theorem c1_missing_receivers_exporters (cfg : Config) :
    (cfg.Receivers = [] → cfg.Validate = some GoError.missingReceivers) ∧
    (cfg.Receivers ≠ [] →
      validateEntries GoError.receiverInvalid cfg.Receivers = none →
      cfg.Exporters = [] → cfg.Validate = some GoError.missingExporters) := by
  constructor
  · intro h
    simp [Config.Validate, Config.ValidateFull, h]
  · intro h1 h2 h3
    simp [Config.Validate, Config.ValidateFull, length_ne_zero_of_ne_nil h1, h2, h3]

/-- C1 witness: both amended halves at concrete configs. -/
theorem c1_missing_receivers_exporters_witness :
    emptyConfig.Receivers = [] ∧
      emptyConfig.Validate = some GoError.missingReceivers ∧
      recvOnlyConfig.Receivers ≠ [] ∧ recvOnlyConfig.Exporters = [] ∧
      recvOnlyConfig.Validate = some GoError.missingExporters :=
  ⟨rfl, (c1_missing_receivers_exporters emptyConfig).1 rfl, by decide, rfl,
    (c1_missing_receivers_exporters recvOnlyConfig).2 (by decide) (by decide) rfl⟩

/-- C2.  As stated the claim fails: a config with an empty pipelines map is
not always rejected with the missing-pipelines error, because every earlier
check runs first.  On a config holding one valid receiver, no exporters and
no pipelines, `Validate` returns the missing-exporters error instead. -/
theorem c2_not_unconditional :
    recvOnlyConfig.Service.Pipelines = [] ∧
      recvOnlyConfig.Validate ≠ some GoError.missingServicePipelines := by
  exact ⟨rfl, by decide⟩

/-- C2 (amended): a config with an empty pipelines map is rejected with
`errMissingServicePipelines` provided every earlier check passes: the
receivers and exporters maps are non-empty, every component config passes its
validation hook and every service extension reference resolves. -/
theorem c2_missing_pipelines (cfg : Config)
    (h1 : cfg.Receivers ≠ [])
    (h2 : validateEntries GoError.receiverInvalid cfg.Receivers = none)
    (h3 : cfg.Exporters ≠ [])
    (h4 : validateEntries GoError.exporterInvalid cfg.Exporters = none)
    (h5 : validateEntries GoError.processorInvalid cfg.Processors = none)
    (h6 : validateEntries GoError.extensionInvalid cfg.Extensions = none)
    (h7 : checkServiceExtensions cfg cfg.Service.Extensions = none)
    (h8 : cfg.Service.Pipelines = []) :
    cfg.Validate = some GoError.missingServicePipelines := by
  unfold Config.Validate
  rw [validateFull_of_preOk cfg h1 h2 h3 h4 h5 h6]
  simp [Config.validateService, h7, h8]

/-- C2 witness: one valid receiver, one valid exporter, no pipelines. -/
theorem c2_missing_pipelines_witness :
    minimalNoPipelines.Service.Pipelines = [] ∧
      minimalNoPipelines.Validate = some GoError.missingServicePipelines :=
  ⟨rfl, c2_missing_pipelines minimalNoPipelines (by decide) (by decide) (by decide)
    (by decide) (by decide) (by decide) (by decide) rfl⟩

/-- A pipeline of the unsupported kind "profiles", otherwise well-formed. -/
def profilesPipeline : Pipeline := ⟨[otlpID], [], [otlpID]⟩

/-- A config containing the "profiles" pipeline but no receivers. -/
def noRecvBadKind : Config :=
  ⟨[], [(otlpID, some okCfg)], [], [],
    ⟨noTelemetry, [], [(profilesPid, profilesPipeline)]⟩⟩

/-- C3.  As stated the claim fails: a config containing a pipeline of an
unknown kind is not always rejected with the unknown-kind error, because
every earlier check runs first.  On a config holding the "profiles" pipeline
but no receivers, `Validate` returns the missing-receivers error instead. -/
theorem c3_not_unconditional :
    (profilesPid, profilesPipeline) ∈ noRecvBadKind.Service.Pipelines ∧
      profilesPid.type = "profiles" ∧
      noRecvBadKind.Validate ≠
        some (GoError.unknownPipelineDatatype profilesPid.type profilesPid) := by
  exact ⟨by decide, rfl, by decide⟩

/-- C3 (amended): a pipeline whose identity encodes a kind outside
{traces, metrics, logs} is rejected with the unknown-kind error naming the
actual kind and the pipeline identity, provided every earlier check passes
(non-empty receivers and exporters, all component configs valid, all service
extension references resolved, at least one pipeline) and every pipeline
iterated before it passes its per-pipeline checks. -/
theorem c3_unknown_pipeline_kind (cfg : Config)
    (h1 : cfg.Receivers ≠ [])
    (h2 : validateEntries GoError.receiverInvalid cfg.Receivers = none)
    (h3 : cfg.Exporters ≠ [])
    (h4 : validateEntries GoError.exporterInvalid cfg.Exporters = none)
    (h5 : validateEntries GoError.processorInvalid cfg.Processors = none)
    (h6 : validateEntries GoError.extensionInvalid cfg.Extensions = none)
    (h7 : checkServiceExtensions cfg cfg.Service.Extensions = none)
    (l₁ l₂ : List (ID × Pipeline)) (pid : ID) (p : Pipeline)
    (h8 : cfg.Service.Pipelines = l₁ ++ (pid, p) :: l₂)
    (h9 : ∀ q ∈ l₁, pipelineChecks cfg q.1 q.2 = none)
    (h10 : pid.type ≠ DataTypeTraces ∧ pid.type ≠ DataTypeMetrics ∧
      pid.type ≠ DataTypeLogs) :
    cfg.Validate = some (GoError.unknownPipelineDatatype pid.type pid) := by
  have hval : cfg.Validate = (pipelinesLoop cfg cfg.Service.Pipelines []).1 := by
    unfold Config.Validate
    rw [validateFull_of_preOk cfg h1 h2 h3 h4 h5 h6,
      validateService_toLoop cfg h7 (by simp [h8])]
  have hpc : pipelineChecks cfg pid p =
      some (GoError.unknownPipelineDatatype pid.type pid) := by
    unfold pipelineChecks
    rw [if_pos h10]
  rw [hval, h8, pipelinesLoop_fst_append_ok cfg l₁ ((pid, p) :: l₂) [] h9]
  simp [pipelinesLoop, hpc]

/-- C3 witness: a well-formed config whose single pipeline is the "profiles"
pipeline. -/
theorem c3_unknown_pipeline_kind_witness :
    (⟨[(otlpID, some okCfg)], [(otlpID, some okCfg)], [], [],
        ⟨noTelemetry, [], [(profilesPid, profilesPipeline)]⟩⟩ : Config).Validate =
      some (GoError.unknownPipelineDatatype "profiles" profilesPid) :=
  c3_unknown_pipeline_kind _ (by decide) (by decide) (by decide) (by decide)
    (by decide) (by decide) (by decide) [] [] profilesPid profilesPipeline rfl
    (by simp) (by decide)

/-- A traces pipeline naming "batch" twice, with an empty exporter list. -/
def dupBatchNoExp : Pipeline := ⟨[otlpID], [batchID, batchID], []⟩

/-- A config whose pipeline names "batch" twice while "batch" is absent from
the top-level processors map. -/
def dupMissingProc : Config :=
  ⟨[(otlpID, some okCfg)], [(otlpID, some okCfg)], [], [],
    ⟨noTelemetry, [], [(tracesPid, ⟨[otlpID], [batchID, batchID], [otlpID]⟩)]⟩⟩

/-- C4.  As stated the claim fails: a pipeline naming the same processor
twice is not always rejected with the duplicate-reference error.  When the
duplicated identity is absent from the top-level processors map, the
resolution check of its first occurrence fires first, so `Validate` returns
the dangling-reference error instead. -/
theorem c4_requires_resolvable_duplicate :
    (tracesPid, (⟨[otlpID], [batchID, batchID], [otlpID]⟩ : Pipeline)) ∈
        dupMissingProc.Service.Pipelines ∧
      dupMissingProc.Validate ≠
        some (GoError.pipelineProcessorMultiple tracesPid batchID) := by
  exact ⟨by decide, by decide⟩

/-- C4 (amended): a pipeline whose processor list names the same identity
twice is rejected with the duplicate-reference error for that processor and
pipeline, provided every check that runs earlier passes: the global checks,
the pipelines iterated before it, its kind and receiver checks, and — within
the processor list — every entry up to the second occurrence resolving in the
top-level map with no earlier duplicate.  The pipeline's exporter list is
unconstrained: the error is returned before any exporter check. -/
theorem c4_duplicate_processor (cfg : Config)
    (h1 : cfg.Receivers ≠ [])
    (h2 : validateEntries GoError.receiverInvalid cfg.Receivers = none)
    (h3 : cfg.Exporters ≠ [])
    (h4 : validateEntries GoError.exporterInvalid cfg.Exporters = none)
    (h5 : validateEntries GoError.processorInvalid cfg.Processors = none)
    (h6 : validateEntries GoError.extensionInvalid cfg.Extensions = none)
    (h7 : checkServiceExtensions cfg cfg.Service.Extensions = none)
    (l₁ l₂ : List (ID × Pipeline)) (pid : ID) (p : Pipeline)
    (h8 : cfg.Service.Pipelines = l₁ ++ (pid, p) :: l₂)
    (h9 : ∀ q ∈ l₁, pipelineChecks cfg q.1 q.2 = none)
    (hkind : ¬(pid.type ≠ DataTypeTraces ∧ pid.type ≠ DataTypeMetrics ∧
      pid.type ≠ DataTypeLogs))
    (hrne : p.Receivers ≠ [])
    (hrres : ∀ x ∈ p.Receivers, (goGet cfg.Receivers x).isNone = false)
    (l : List ID) (r : ID) (rest : List ID)
    (hproc : p.Processors = l ++ r :: rest)
    (hlres : ∀ x ∈ l, (goGet cfg.Processors x).isNone = false)
    (hlnd : l.Nodup)
    (hres : (goGet cfg.Processors r).isNone = false)
    (hmem : r ∈ l) :
    cfg.Validate = some (GoError.pipelineProcessorMultiple pid r) := by
  have hval : cfg.Validate = (pipelinesLoop cfg cfg.Service.Pipelines []).1 := by
    unfold Config.Validate
    rw [validateFull_of_preOk cfg h1 h2 h3 h4 h5 h6,
      validateService_toLoop cfg h7 (by simp [h8])]
  have hpc : pipelineChecks cfg pid p =
      some (GoError.pipelineProcessorMultiple pid r) := by
    unfold pipelineChecks
    rw [if_neg hkind, if_neg (length_ne_zero_of_ne_nil hrne),
      checkRefs_ok cfg.Receivers _ p.Receivers hrres, hproc,
      checkProcessors_dup cfg.Processors pid l r rest hlres hlnd hres hmem]
  rw [hval, h8, pipelinesLoop_fst_append_ok cfg l₁ ((pid, p) :: l₂) [] h9]
  simp [pipelinesLoop, hpc]

/-- C4 witness: the spec's Example 2 sharpened to exhibit the ordering — the
pipeline's exporter list is left empty, yet the duplicate-reference error is
the one returned, so the exporter checks were never reached. -/
theorem c4_duplicate_processor_witness :
    (⟨[(otlpID, some okCfg)], [(otlpID, some okCfg)], [(batchID, some okCfg)],
        [], ⟨noTelemetry, [], [(tracesPid, dupBatchNoExp)]⟩⟩ : Config).Validate =
      some (GoError.pipelineProcessorMultiple tracesPid batchID) :=
  c4_duplicate_processor _ (by decide) (by decide) (by decide) (by decide)
    (by decide) (by decide) (by decide) [] [] tracesPid dupBatchNoExp rfl
    (by simp) (by decide) (by decide) (by decide) [batchID] batchID [] rfl
    (by decide) (by decide) (by decide) (by decide)

/-- A config with no receivers whose pipeline references the absent receiver
"zipkin". -/
def noRecvDangling : Config :=
  ⟨[], [(otlpID, some okCfg)], [], [],
    ⟨noTelemetry, [], [(tracesPid, ⟨[zipkinID], [], [otlpID]⟩)]⟩⟩

/-- C5.  As stated the claim fails: a pipeline referencing an absent
component identity is not always rejected with the dangling-reference error,
because every earlier check runs first.  On a config whose pipeline references
the absent receiver "zipkin" but whose receivers map is empty, `Validate`
returns the missing-receivers error instead. -/
theorem c5_not_unconditional :
    (tracesPid, (⟨[zipkinID], [], [otlpID]⟩ : Pipeline)) ∈
        noRecvDangling.Service.Pipelines ∧
      goGet noRecvDangling.Receivers zipkinID = none ∧
      noRecvDangling.Validate ≠
        some (GoError.pipelineReceiverNotExist tracesPid zipkinID) := by
  exact ⟨by decide, rfl, by decide⟩

/-- C5 (amended): an unresolvable reference is rejected with the
dangling-reference error naming the missing identity (and, for pipeline
references, the pipeline identity), provided validation reaches that
reference: every earlier global check passes, every earlier pipeline passes,
the checks of the same pipeline that run earlier pass, and the references
iterated before it in the same list resolve.  Clause one: service extension
references; clause two: pipeline receiver references; clause three: pipeline
processor references; clause four: pipeline exporter references. -/
theorem c5_dangling_reference (cfg : Config)
    (h1 : cfg.Receivers ≠ [])
    (h2 : validateEntries GoError.receiverInvalid cfg.Receivers = none)
    (h3 : cfg.Exporters ≠ [])
    (h4 : validateEntries GoError.exporterInvalid cfg.Exporters = none)
    (h5 : validateEntries GoError.processorInvalid cfg.Processors = none)
    (h6 : validateEntries GoError.extensionInvalid cfg.Extensions = none) :
    (∀ (e₁ : List ID) (ref : ID) (e₂ : List ID),
      cfg.Service.Extensions = e₁ ++ ref :: e₂ →
      (∀ x ∈ e₁, (goGet cfg.Extensions x).isNone = false) →
      (goGet cfg.Extensions ref).isNone = true →
      cfg.Validate = some (GoError.serviceExtensionNotExist ref)) ∧
    (∀ (h7 : checkServiceExtensions cfg cfg.Service.Extensions = none)
      (l₁ l₂ : List (ID × Pipeline)) (pid : ID) (p : Pipeline),
      cfg.Service.Pipelines = l₁ ++ (pid, p) :: l₂ →
      (∀ q ∈ l₁, pipelineChecks cfg q.1 q.2 = none) →
      ¬(pid.type ≠ DataTypeTraces ∧ pid.type ≠ DataTypeMetrics ∧
        pid.type ≠ DataTypeLogs) →
      (∀ (r₁ : List ID) (ref : ID) (r₂ : List ID),
        p.Receivers = r₁ ++ ref :: r₂ →
        (∀ x ∈ r₁, (goGet cfg.Receivers x).isNone = false) →
        (goGet cfg.Receivers ref).isNone = true →
        cfg.Validate = some (GoError.pipelineReceiverNotExist pid ref)) ∧
      ((∀ x ∈ p.Receivers, (goGet cfg.Receivers x).isNone = false) →
        p.Receivers ≠ [] →
        (∀ (q₁ : List ID) (ref : ID) (q₂ : List ID),
          p.Processors = q₁ ++ ref :: q₂ →
          (∀ x ∈ q₁, (goGet cfg.Processors x).isNone = false) →
          q₁.Nodup →
          (goGet cfg.Processors ref).isNone = true →
          cfg.Validate = some (GoError.pipelineProcessorNotExist pid ref)) ∧
        ((∀ x ∈ p.Processors, (goGet cfg.Processors x).isNone = false) →
          p.Processors.Nodup →
          ∀ (x₁ : List ID) (ref : ID) (x₂ : List ID),
          p.Exporters = x₁ ++ ref :: x₂ →
          (∀ x ∈ x₁, (goGet cfg.Exporters x).isNone = false) →
          (goGet cfg.Exporters ref).isNone = true →
          cfg.Validate = some (GoError.pipelineExporterNotExist pid ref)))) := by
  constructor
  · intro e₁ ref e₂ hext hsolved hdangle
    unfold Config.Validate
    rw [validateFull_of_preOk cfg h1 h2 h3 h4 h5 h6]
    have hce : checkServiceExtensions cfg cfg.Service.Extensions =
        some (GoError.serviceExtensionNotExist ref) := by
      unfold checkServiceExtensions
      rw [hext]
      exact checkRefs_append_found cfg.Extensions _ e₁ ref e₂ hsolved hdangle
    simp [Config.validateService, hce]
  · intro h7 l₁ l₂ pid p h8 h9 hkind
    have hval : cfg.Validate = (pipelinesLoop cfg ((pid, p) :: l₂) []).1 := by
      unfold Config.Validate
      rw [validateFull_of_preOk cfg h1 h2 h3 h4 h5 h6,
        validateService_toLoop cfg h7 (by simp [h8]), h8,
        pipelinesLoop_fst_append_ok cfg l₁ ((pid, p) :: l₂) [] h9]
    constructor
    · intro r₁ ref r₂ hrecv hsolved hdangle
      have hpc : pipelineChecks cfg pid p =
          some (GoError.pipelineReceiverNotExist pid ref) := by
        unfold pipelineChecks
        rw [if_neg hkind, if_neg (length_ne_zero_of_ne_nil (by simp [hrecv])),
          hrecv, checkRefs_append_found cfg.Receivers _ r₁ ref r₂ hsolved hdangle]
      rw [hval]
      simp [pipelinesLoop, hpc]
    · intro hrres hrne
      constructor
      · intro q₁ ref q₂ hproc hsolved hnd hdangle
        have hpc : pipelineChecks cfg pid p =
            some (GoError.pipelineProcessorNotExist pid ref) := by
          unfold pipelineChecks
          rw [if_neg hkind, if_neg (length_ne_zero_of_ne_nil hrne),
            checkRefs_ok cfg.Receivers _ p.Receivers hrres, hproc,
            checkProcessors_dangling cfg.Processors pid q₁ ref q₂ hsolved hnd hdangle]
        rw [hval]
        simp [pipelinesLoop, hpc]
      · intro hpres hpnd x₁ ref x₂ hexp hsolved hdangle
        have hpc : pipelineChecks cfg pid p =
            some (GoError.pipelineExporterNotExist pid ref) := by
          unfold pipelineChecks
          rw [if_neg hkind, if_neg (length_ne_zero_of_ne_nil hrne),
            checkRefs_ok cfg.Receivers _ p.Receivers hrres,
            checkProcessors_ok cfg.Processors pid p.Processors hpres hpnd]
          simp only [if_neg (length_ne_zero_of_ne_nil (l := p.Exporters) (by simp [hexp]))]
          rw [hexp,
            checkRefs_append_found cfg.Exporters _ x₁ ref x₂ hsolved hdangle]
        rw [hval]
        simp [pipelinesLoop, hpc]

/-- C5 witness: clause one at a config whose service lists the absent
extension "health", and clause two at a config whose pipeline references the
absent receiver "zipkin". -/
theorem c5_dangling_reference_witness :
    (⟨[(otlpID, some okCfg)], [(otlpID, some okCfg)], [], [],
        ⟨noTelemetry, [healthID], []⟩⟩ : Config).Validate =
      some (GoError.serviceExtensionNotExist healthID) ∧
    (⟨[(otlpID, some okCfg)], [(otlpID, some okCfg)], [], [],
        ⟨noTelemetry, [], [(tracesPid, ⟨[zipkinID], [], [otlpID]⟩)]⟩⟩ : Config).Validate =
      some (GoError.pipelineReceiverNotExist tracesPid zipkinID) :=
  ⟨(c5_dangling_reference _ (by decide) (by decide) (by decide) (by decide)
      (by decide) (by decide)).1 [] healthID [] rfl (by simp) (by decide),
   ((c5_dangling_reference _ (by decide) (by decide) (by decide) (by decide)
      (by decide) (by decide)).2 (by decide) [] [] tracesPid
      ⟨[zipkinID], [], [otlpID]⟩ rfl (by simp) (by decide)).1 [] zipkinID []
      rfl (by simp) (by decide)⟩

/-- C6: a factory built by `NewReceiverFactory` with only a
`WithMetricsReceiver` option.  Calling its traces or logs constructor returns
a nil component with the `ErrDataTypeIsNotSupported` sentinel (a total
function call, not a panic); its traces and logs stability levels read
`undefined`; and its metrics constructor returns exactly what the supplied
function returns at the same arguments. -/
theorem c6_metrics_only_factory (TA TR MA MR LA LR : Type) (cfgType : String)
    (defCfg : Unit → Option CompConfig) (createMetrics : MA → CreateResult MR)
    (sl : StabilityLevel) (xT : TA) (xM : MA) (xL : LA) :
    let F : receiverFactory TA TR MA MR LA LR :=
      NewReceiverFactory cfgType defCfg [WithMetricsReceiver createMetrics sl]
    F.CreateTracesReceiver xT = (none, some ErrDataTypeIsNotSupported) ∧
      F.CreateLogsReceiver xL = (none, some ErrDataTypeIsNotSupported) ∧
      F.TracesReceiverStability = StabilityLevel.undefined ∧
      F.LogsReceiverStability = StabilityLevel.undefined ∧
      F.MetricsReceiverStability = sl ∧
      F.CreateMetricsReceiver xM = createMetrics xM :=
  ⟨rfl, rfl, rfl, rfl, rfl, rfl⟩

/-- The config with the telemetry sub-config's validation result replaced. -/
def Config.withTelemetryResult (cfg : Config) (t : Option String) : Config :=
  { cfg with Service := { cfg.Service with Telemetry := ⟨t⟩ } }

theorem pipelinesLoop_fst_telemetry (cfg : Config) (t : Option String) :
    ∀ (l : List (ID × Pipeline)) (logs logs' : List String),
      (pipelinesLoop (cfg.withTelemetryResult t) l logs).1 =
        (pipelinesLoop cfg l logs').1 := by
  intro l
  induction l with
  | nil => intro logs logs'; rfl
  | cons q rest ih =>
    intro logs logs'
    obtain ⟨pid, p⟩ := q
    have hpc : pipelineChecks (cfg.withTelemetryResult t) pid p =
        pipelineChecks cfg pid p := rfl
    cases h : pipelineChecks cfg pid p with
    | some e => simp [pipelinesLoop, hpc, h]
    | none =>
      have ht : (cfg.withTelemetryResult t).Service.Telemetry.validateResult = t := rfl
      cases horig : cfg.Service.Telemetry.validateResult with
      | some msg =>
        cases t with
        | some tmsg =>
          simpa [pipelinesLoop, hpc, h, ht, horig] using
            ih (logs ++ [telemetryWarn tmsg]) (logs' ++ [telemetryWarn msg])
        | none =>
          simpa [pipelinesLoop, hpc, h, ht, horig] using
            ih logs (logs' ++ [telemetryWarn msg])
      | none =>
        cases t with
        | some tmsg =>
          simpa [pipelinesLoop, hpc, h, ht, horig] using
            ih (logs ++ [telemetryWarn tmsg]) logs'
        | none =>
          simpa [pipelinesLoop, hpc, h, ht, horig] using ih logs logs'

/-- C7: the telemetry sub-config's validation result never changes the error
`Validate` returns — replacing it by any result, failing or not, leaves the
returned error identical, so a config passing every hard check yields nil
even when the telemetry check fails, and a telemetry failure never causes a
non-nil return. -/
theorem c7_telemetry_soft_check (cfg : Config) (t : Option String) :
    (cfg.withTelemetryResult t).Validate = cfg.Validate := by
  have hsvc : ((cfg.withTelemetryResult t).validateService).1 =
      (cfg.validateService).1 := by
    have hce : checkServiceExtensions (cfg.withTelemetryResult t)
        (cfg.withTelemetryResult t).Service.Extensions =
        checkServiceExtensions cfg cfg.Service.Extensions := rfl
    cases h : checkServiceExtensions cfg cfg.Service.Extensions with
    | some e => simp [Config.validateService, hce, h]
    | none =>
      have hp : (cfg.withTelemetryResult t).Service.Pipelines =
          cfg.Service.Pipelines := rfl
      by_cases hlen : cfg.Service.Pipelines.length = 0
      · simp [Config.validateService, hce, h, hp, hlen]
      · simp [Config.validateService, hce, h, hp, hlen,
          pipelinesLoop_fst_telemetry cfg t cfg.Service.Pipelines [] []]
  unfold Config.Validate Config.ValidateFull
  have hR : (cfg.withTelemetryResult t).Receivers = cfg.Receivers := rfl
  have hE : (cfg.withTelemetryResult t).Exporters = cfg.Exporters := rfl
  have hP : (cfg.withTelemetryResult t).Processors = cfg.Processors := rfl
  have hX : (cfg.withTelemetryResult t).Extensions = cfg.Extensions := rfl
  rw [hR, hE, hP, hX]
  by_cases h1 : cfg.Receivers.length = 0
  · simp [h1]
  · cases h2 : validateEntries GoError.receiverInvalid cfg.Receivers with
    | some e => simp [h1, h2]
    | none =>
      by_cases h3 : cfg.Exporters.length = 0
      · simp [h1, h2, h3]
      · cases h4 : validateEntries GoError.exporterInvalid cfg.Exporters with
        | some e => simp [h1, h2, h3, h4]
        | none =>
          cases h5 : validateEntries GoError.processorInvalid cfg.Processors with
          | some e => simp [h1, h2, h3, h4, h5]
          | none =>
            cases h6 : validateEntries GoError.extensionInvalid cfg.Extensions with
            | some e => simp [h1, h2, h3, h4, h5, h6]
            | none => simp [h1, h2, h3, h4, h5, h6, hsvc]

/-- C8: running `Validate` a second time on the (unchanged) config the first
call leaves behind returns the same result as the first call: the validator
reads only its input and writes nothing, so repetition cannot diverge. -/
theorem c8_validate_idempotent (cfg : Config) :
    ((cfg.ValidateSt).2.ValidateSt).1 = (cfg.ValidateSt).1 := rfl

/-- C9: `Validate` leaves its input unchanged — the post-state of the pointer
receiver equals the pre-state in every field; the source contains no
assignment to any field of the config, its only mutable state being the local
`procSet`. -/
theorem c9_validate_no_mutation (cfg : Config) :
    (cfg.ValidateSt).2 = cfg := rfl

theorem validateFull_receivers_nil_entry (cfg : Config) (i : ID) (l₁ l₂ : GoMap)
    (hmap : cfg.Receivers = l₁ ++ (i, none) :: l₂)
    (hfresh : i ∉ (l₁ ++ l₂).map Prod.fst)
    (hne : l₁ ++ l₂ ≠ []) :
    cfg.ValidateFull = ({ cfg with Receivers := l₁ ++ l₂ } : Config).ValidateFull := by
  have hgg : ∀ k, goGet cfg.Receivers k = goGet (l₁ ++ l₂) k := by
    intro k
    rw [hmap]
    exact goGet_insert_nil i l₁ l₂ hfresh k
  have hsvc : cfg.validateService =
      ({ cfg with Receivers := l₁ ++ l₂ } : Config).validateService :=
    validateService_congr _ _ (fun k => hgg k) (fun _ => rfl) (fun _ => rfl)
      (fun _ => rfl) rfl
  have hlen1 : ¬cfg.Receivers.length = 0 := by simp [hmap]
  have hlen2 : ¬(l₁ ++ l₂).length = 0 := length_ne_zero_of_ne_nil hne
  unfold Config.ValidateFull
  rw [if_neg hlen1, if_neg hlen2, hmap, validateEntries_insert_nil, hsvc]

theorem validateFull_exporters_nil_entry (cfg : Config) (i : ID) (l₁ l₂ : GoMap)
    (hmap : cfg.Exporters = l₁ ++ (i, none) :: l₂)
    (hfresh : i ∉ (l₁ ++ l₂).map Prod.fst)
    (hne : l₁ ++ l₂ ≠ []) :
    cfg.ValidateFull = ({ cfg with Exporters := l₁ ++ l₂ } : Config).ValidateFull := by
  have hgg : ∀ k, goGet cfg.Exporters k = goGet (l₁ ++ l₂) k := by
    intro k
    rw [hmap]
    exact goGet_insert_nil i l₁ l₂ hfresh k
  have hsvc : cfg.validateService =
      ({ cfg with Exporters := l₁ ++ l₂ } : Config).validateService :=
    validateService_congr _ _ (fun _ => rfl) (fun _ => rfl) (fun k => hgg k)
      (fun _ => rfl) rfl
  have hlen1 : ¬cfg.Exporters.length = 0 := by simp [hmap]
  have hlen2 : ¬(l₁ ++ l₂).length = 0 := length_ne_zero_of_ne_nil hne
  unfold Config.ValidateFull
  rw [if_neg hlen1, if_neg hlen2, hmap, validateEntries_insert_nil, hsvc]

theorem validateFull_processors_nil_entry (cfg : Config) (i : ID) (l₁ l₂ : GoMap)
    (hmap : cfg.Processors = l₁ ++ (i, none) :: l₂)
    (hfresh : i ∉ (l₁ ++ l₂).map Prod.fst) :
    cfg.ValidateFull = ({ cfg with Processors := l₁ ++ l₂ } : Config).ValidateFull := by
  have hgg : ∀ k, goGet cfg.Processors k = goGet (l₁ ++ l₂) k := by
    intro k
    rw [hmap]
    exact goGet_insert_nil i l₁ l₂ hfresh k
  have hsvc : cfg.validateService =
      ({ cfg with Processors := l₁ ++ l₂ } : Config).validateService :=
    validateService_congr _ _ (fun _ => rfl) (fun k => hgg k) (fun _ => rfl)
      (fun _ => rfl) rfl
  unfold Config.ValidateFull
  rw [hmap, validateEntries_insert_nil, hsvc]

theorem validateFull_extensions_nil_entry (cfg : Config) (i : ID) (l₁ l₂ : GoMap)
    (hmap : cfg.Extensions = l₁ ++ (i, none) :: l₂)
    (hfresh : i ∉ (l₁ ++ l₂).map Prod.fst) :
    cfg.ValidateFull = ({ cfg with Extensions := l₁ ++ l₂ } : Config).ValidateFull := by
  have hgg : ∀ k, goGet cfg.Extensions k = goGet (l₁ ++ l₂) k := by
    intro k
    rw [hmap]
    exact goGet_insert_nil i l₁ l₂ hfresh k
  have hsvc : cfg.validateService =
      ({ cfg with Extensions := l₁ ++ l₂ } : Config).validateService :=
    validateService_congr _ _ (fun _ => rfl) (fun _ => rfl) (fun _ => rfl)
      (fun k => hgg k) rfl
  unfold Config.ValidateFull
  rw [hmap, validateEntries_insert_nil, hsvc]

/-- C10: a key bound to a nil config value in any of the four category maps
behaves, through `Validate`, exactly as if the key were absent: the nil entry
can be removed without changing the returned error, because existence at
every reference-resolution site is decided by `m[ref] == nil`, which cannot
tell a stored nil from an absent key, and because `ValidateConfig` accepts a
nil value.  For the receivers and exporters maps the surrounding map must
stay non-empty, since a removed entry also shrinks the length that the
mandatory-presence checks read — that is the claim's own presupposition that
the absent-key run reaches the dangling-reference check at all. -/
theorem c10_nil_entry_as_absent (cat : Category) (cfg : Config) (i : ID)
    (l₁ l₂ : GoMap)
    (hmap : cfg.catMap cat = l₁ ++ (i, none) :: l₂)
    (hfresh : i ∉ (l₁ ++ l₂).map Prod.fst)
    (hne : cat = Category.receivers ∨ cat = Category.exporters → l₁ ++ l₂ ≠ []) :
    cfg.Validate = (cfg.setCatMap cat (l₁ ++ l₂)).Validate := by
  cases cat with
  | receivers =>
    unfold Config.Validate
    rw [validateFull_receivers_nil_entry cfg i l₁ l₂ hmap hfresh (hne (Or.inl rfl))]
    rfl
  | exporters =>
    unfold Config.Validate
    rw [validateFull_exporters_nil_entry cfg i l₁ l₂ hmap hfresh (hne (Or.inr rfl))]
    rfl
  | processors =>
    unfold Config.Validate
    rw [validateFull_processors_nil_entry cfg i l₁ l₂ hmap hfresh]
    rfl
  | extensions =>
    unfold Config.Validate
    rw [validateFull_extensions_nil_entry cfg i l₁ l₂ hmap hfresh]
    rfl

/-- A config whose receivers map holds "zipkin" as a key bound to a nil
value, referenced by its pipeline. -/
def nilEntryConfig : Config :=
  ⟨[(otlpID, some okCfg), (zipkinID, none)], [(otlpID, some okCfg)], [], [],
    ⟨noTelemetry, [], [(tracesPid, ⟨[zipkinID], [], [otlpID]⟩)]⟩⟩

/-- C10 witness: removing the nil-valued "zipkin" entry leaves the result
unchanged, and that common result is the dangling-reference error naming the
pipeline and "zipkin" — the nil-valued key does not count as existing. -/
theorem c10_nil_entry_as_absent_witness :
    nilEntryConfig.Validate =
        (nilEntryConfig.setCatMap Category.receivers [(otlpID, some okCfg)]).Validate ∧
      nilEntryConfig.Validate =
        some (GoError.pipelineReceiverNotExist tracesPid zipkinID) :=
  ⟨c10_nil_entry_as_absent Category.receivers nilEntryConfig zipkinID
      [(otlpID, some okCfg)] [] rfl (by decide) (fun _ => by decide),
    by decide⟩

end Otel
